import Mathlib

/-!
# Verification of the mcp-neo4j-semantic-memory core

Shallow embedding of the Graph Merge & Write-Gate Engine:
the Cypher write-operation classifier (`utils/cypher-utils.js`),
the security-node gate (`wrapWithSecurityCheck`), the graph store
adapter (`neo4j-memory.js`), the `safe_cypher_query` protocol handler
(`index.js`), and the base-ontology orchestrator
(`tools/base-ontology.js`).
-/

set_option maxRecDepth 10000

namespace SemMem

/-! ## Query classifier (`containsWriteOperations`, utils/cypher-utils.js)

The source tests the query against the case-insensitive regex
`\b(CREATE|SET|DELETE|REMOVE|MERGE)\b`.  We embed the regex semantics
directly: an occurrence of one of the keywords at some position, with a
JS word boundary (`\b`, i.e. the neighbouring character, when present,
is not in `[A-Za-z0-9_]`) on both sides, case-insensitively. -/

/-- JS regex word character class `\w` = `[A-Za-z0-9_]`. -/
def isWordChar (c : Char) : Bool :=
  c.isAlpha || c.isDigit || c = '_'

/-- The write-operator keyword set of `containsWriteOperations`. -/
def writeOperators : List (List Char) :=
  ["CREATE", "SET", "DELETE", "REMOVE", "MERGE"].map String.data

/-- Case-insensitive match of keyword `kw` (given upper-case) at position
`i` of `s`, with a `\b` word boundary on both sides. -/
def matchKwAt (s kw : List Char) (i : Nat) : Bool :=
  decide (((s.drop i).take kw.length).map Char.toUpper = kw) &&
  (decide (i = 0) || !(isWordChar (s.getD (i - 1) ' '))) &&
  (decide (s.length ≤ i + kw.length) || !(isWordChar (s.getD (i + kw.length) ' ')))

/-- `containsWriteOperations(query)` from `utils/cypher-utils.js`: true iff
the case-insensitive regex `\b(CREATE|SET|DELETE|REMOVE|MERGE)\b` matches
somewhere in the query. -/
def containsWriteOperations (query : String) : Bool :=
  let s := query.data
  (List.range (s.length + 1)).any fun i =>
    writeOperators.any fun kw => matchKwAt s kw i

/-- Spec-side reading of the classifier rule: some standalone-token
(word-boundary) occurrence of one of CREATE, SET, DELETE, REMOVE, MERGE,
case-insensitively, anywhere in the query. -/
def IsWriteQuery (query : String) : Prop :=
  ∃ kw ∈ writeOperators, ∃ i : Nat,
    ((query.data.drop i).take kw.length).map Char.toUpper = kw ∧
    (i = 0 ∨ isWordChar (query.data.getD (i - 1) ' ') = false) ∧
    (query.data.length ≤ i + kw.length ∨
      isWordChar (query.data.getD (i + kw.length) ' ') = false)

/-! ## Backing store model

A Neo4j store as the system observes it: labelled nodes with the property
keys this system reads or writes, and directed relationships.  Absent
properties are `none` (JS `undefined` / Cypher `null`). -/

/-- Node labels the system distinguishes. -/
inductive Label where
  | memory
  | securityNode
  | baseOntology
  | other
deriving DecidableEq, Repr

/-- Node property map (the keys this system touches). -/
structure Props where
  name : Option String := none
  entityID : Option String := none
  entityType : Option String := none
  observations : Option (List String) := none
  createdAt : Option Nat := none
  updatedAt : Option Nat := none
  expiresAt : Option Nat := none
deriving DecidableEq, Repr

/-- A stored node. `nid` is the internal node identity. -/
structure Node where
  nid : Nat
  label : Label
  props : Props
deriving DecidableEq, Repr

/-- Relationship property map.  Relationships written by `saveGraph`
carry only `relationType`; external writers may also set the `from`/`to`
properties (`rfrom`/`rto` here, since `from` is reserved in Lean). -/
structure RProps where
  rfrom : Option String := none
  rto : Option String := none
  relationType : Option String := none
deriving DecidableEq, Repr

/-- A stored relationship between two nodes. -/
structure Edge where
  src : Nat
  dst : Nat
  props : RProps
deriving DecidableEq, Repr

/-- The backing graph store. -/
structure Store where
  nodes : List Node
  edges : List Edge
  nextId : Nat
deriving DecidableEq, Repr

/-- `createSecurityNode(name)` (neo4j-memory.js): CREATE a `SecurityNode`
with `name`, `createdAt = now`, `expiresAt = now + 5 min`. -/
def createSecurityNodeStore (s : Store) (n : String) (now : Nat) : Store :=
  let secProps : Props :=
    { name := some n, createdAt := some now, expiresAt := some (now + 5 * 60) }
  let nd : Node := { nid := s.nextId, label := Label.securityNode, props := secProps }
  { s with nodes := s.nodes ++ [nd], nextId := s.nextId + 1 }

/-- `removeSecurityNode(name)` (neo4j-memory.js): `MATCH (s:SecurityNode
{name}) DELETE s` — removes every security node with that name. -/
def removeSecurityNodeStore (s : Store) (n : String) : Store :=
  { s with nodes := s.nodes.filter fun nd =>
      !(decide (nd.label = Label.securityNode) && decide (nd.props.name = some n)) }

/-- Number of `SecurityNode`s named `n` in the store. -/
def countSec (n : String) (s : Store) : Nat :=
  (s.nodes.filter fun nd =>
    decide (nd.label = Label.securityNode) && decide (nd.props.name = some n)).length

/-! ## Gated query semantics (`wrapWithSecurityCheck`)

`wrapWithSecurityCheck` prepends `MATCH (security:SecurityNode {name:
"..."}) WITH security WHERE security IS NOT NULL` to the query text.  We
model the executed query as a Cypher clause pipeline: execution threads a
row count through the clauses (Cypher's row-cardinality semantics), and
every clause performs its writes once per incoming row. -/

/-- The string-level source function `wrapWithSecurityCheck(query,
securityNodeName)` from utils/cypher-utils.js. -/
def wrapWithSecurityCheck (query securityNodeName : String) : String :=
  "\n    // Security check to ensure only authorized operations are performed\n    MATCH (security:SecurityNode \x7bname: \"" ++ securityNodeName ++
    "\"\x7d)\n    WITH security\n    WHERE security IS NOT NULL\n    // Original query follows\n    " ++
    query ++ "\n  "

/-- A Cypher clause of a pipelined query, as executed against `Store`. -/
inductive Clause where
  /-- `MATCH (security:SecurityNode {name: n})`: each incoming row fans
  out to one row per matching security node. -/
  | matchSecurity (n : String)
  /-- `WITH security WHERE security IS NOT NULL`: matched nodes are never
  null, so rows pass through. -/
  | filterNotNull
  /-- `MATCH (m:Memory)`: fan out over memory nodes. -/
  | matchMemory
  /-- `CREATE` of a node, executed once per incoming row. -/
  | createNode (lb : Label) (p : Props)
  /-- `DELETE` of the nodes with a given label and name, once per row. -/
  | deleteNodeNamed (lb : Label) (nm : String)
  /-- `SET` of the observations of named memory nodes, once per row. -/
  | setObservations (nm : String) (obs : List String)
deriving DecidableEq, Repr

/-- Number of memory-labelled nodes. -/
def countMem (s : Store) : Nat :=
  (s.nodes.filter fun nd => decide (nd.label = Label.memory)).length

/-- The store change a write clause makes for one row. -/
def clauseStep : Clause → Store → Store
  | .matchSecurity _, s => s
  | .filterNotNull, s => s
  | .matchMemory, s => s
  | .createNode lb p, s =>
      let nd : Node := { nid := s.nextId, label := lb, props := p }
      { s with nodes := s.nodes ++ [nd], nextId := s.nextId + 1 }
  | .deleteNodeNamed lb nm, s =>
      { s with nodes := s.nodes.filter fun nd =>
          !(decide (nd.label = lb) && decide (nd.props.name = some nm)) }
  | .setObservations nm obs, s =>
      { s with nodes := s.nodes.map fun nd =>
          if decide (nd.label = Label.memory) && decide (nd.props.name = some nm) then
            { nd with props := { nd.props with observations := some obs } }
          else nd }

/-- Execute one clause: the store is updated once per incoming row, and
the row count is transformed (match clauses multiply, write clauses keep
cardinality). -/
def execClause (c : Clause) : Store × Nat → Store × Nat
  | (s, rows) =>
    match c with
    | .matchSecurity n => (s, rows * countSec n s)
    | .filterNotNull => (s, rows)
    | .matchMemory => (s, rows * countMem s)
    | c => (Nat.rec s (fun _ acc => clauseStep c acc) rows, rows)

/-- Execute a clause pipeline left to right. -/
def execQuery (cs : List Clause) (st : Store × Nat) : Store × Nat :=
  cs.foldl (fun acc c => execClause c acc) st

/-- Clause-level counterpart of `wrapWithSecurityCheck`: the gated query
is the security `MATCH`/`WITH`/`WHERE` prefix followed by the original
query's clauses. -/
def gateClauses (q : List Clause) (n : String) : List Clause :=
  Clause.matchSecurity n :: Clause.filterNotNull :: q

/-! ## Graph store adapter (`neo4j-memory.js`)

`loadGraph` reads every `:Memory` node and its outgoing relationships;
the in-memory graph holds the raw property maps.  `saveGraph` runs two
statements: an `UNWIND`/`MERGE` upsert of entities keyed on `entityID =
entity.name`, and an `UNWIND`/`MATCH`/`MERGE` of relations keyed on the
`(from, to, relationType)` endpoints.  Statements fail (the driver
throws) when `MERGE` is given a null key property. -/

/-- The in-memory graph `loadGraph` returns: plain property maps. -/
structure KG where
  entities : List Props
  relations : List RProps
deriving DecidableEq, Repr

/-- `loadGraph()`: `MATCH (entity:Memory) OPTIONAL MATCH (entity)-[r]->
(other) RETURN entity, collect(r)`; entities are the `:Memory` node
property maps, relations the outgoing relationships' property maps. -/
def loadGraph (s : Store) : KG :=
  let mem := s.nodes.filter fun nd => decide (nd.label = Label.memory)
  { entities := mem.map (·.props)
    relations := (mem.map fun nd =>
      (s.edges.filter fun e => decide (e.src = nd.nid)).map (·.props)).flatten }

/-- Cypher `entityMemory += entity`: keys present on the right overwrite,
absent keys keep the old value. -/
def propsPlusEq (old new : Props) : Props :=
  { name := new.name <|> old.name
    entityID := new.entityID <|> old.entityID
    entityType := new.entityType <|> old.entityType
    observations := new.observations <|> old.observations
    createdAt := new.createdAt <|> old.createdAt
    updatedAt := new.updatedAt <|> old.updatedAt
    expiresAt := new.expiresAt <|> old.expiresAt }

/-- One step of the entity upsert statement of `saveGraph`:
`MERGE (entityMemory:Memory { entityID: entity.name }) ON CREATE SET
entityMemory += entity, createdAt = now, updatedAt = now ON MATCH SET
entityMemory += entity, updatedAt = now`.  `MERGE` on a null key throws. -/
def upsertEntity (s : Store) (now : Nat) (e : Props) : Except String Store :=
  match e.name with
  | none => .error "Cannot merge node using null property value"
  | some nm =>
    let isTarget := fun (nd : Node) =>
      decide (nd.label = Label.memory) && decide (nd.props.entityID = some nm)
    if s.nodes.any isTarget then
      .ok { s with nodes := s.nodes.map fun nd =>
        if isTarget nd then
          { nd with props := { propsPlusEq nd.props e with updatedAt := some now } }
        else nd }
    else
      let created : Props :=
        { propsPlusEq {} e with
            entityID := some nm, createdAt := some now, updatedAt := some now }
      let nd : Node := { nid := s.nextId, label := Label.memory, props := created }
      .ok { s with nodes := s.nodes ++ [nd], nextId := s.nextId + 1 }

/-- `MERGE (from)-[r:Memory {relationType: rt}]->(to)` for one matched
node pair: create the relationship unless one with that `relationType`
already connects the pair. -/
def mergeEdgeOnce (s : Store) (aId bId : Nat) (rt : String) : Store :=
  if s.edges.any fun e => decide (e.src = aId) && decide (e.dst = bId) &&
      decide (e.props.relationType = some rt) then s
  else
    let ed : Edge := { src := aId, dst := bId, props := { relationType := some rt } }
    { s with edges := s.edges ++ [ed] }

/-- One step of the relation statement of `saveGraph`: `MATCH
(from:Memory),(to:Memory) WHERE from.entityID = relation.from AND
to.entityID = relation.to MERGE (from)-[r:Memory {relationType:
relation.relationType}]->(to)`.  A null `from`/`to` matches no rows; a
null `relationType` with matched rows makes `MERGE` throw. -/
def mergeRelation (s : Store) (r : RProps) : Except String Store :=
  match r.rfrom, r.rto with
  | some f, some t =>
      let fromNodes := s.nodes.filter fun a =>
        decide (a.label = Label.memory) && decide (a.props.entityID = some f)
      let toNodes := s.nodes.filter fun b =>
        decide (b.label = Label.memory) && decide (b.props.entityID = some t)
      let pairs := (fromNodes.map fun a =>
        toNodes.map fun b => (a.nid, b.nid)).flatten
      if pairs.isEmpty then .ok s
      else
        match r.relationType with
        | none => .error "Cannot merge relationship using null property value"
        | some rt => .ok (pairs.foldl (fun st p => mergeEdgeOnce st p.1 p.2 rt) s)
  | _, _ => .ok s

/-- The entity statement of `saveGraph`, over the unwound entity list. -/
def saveEntities (s : Store) (now : Nat) : List Props → Except String Store
  | [] => .ok s
  | e :: es =>
    match upsertEntity s now e with
    | .error err => .error err
    | .ok s' => saveEntities s' now es

/-- The relation statement of `saveGraph`, over the unwound relations. -/
def saveRelations (s : Store) : List RProps → Except String Store
  | [] => .ok s
  | r :: rs =>
    match mergeRelation s r with
    | .error err => .error err
    | .ok s' => saveRelations s' rs

/-- `saveGraph(graph)` (neo4j-memory.js): the entity upsert statement
followed by the relation merge statement, in one write transaction. -/
def saveGraph (s : Store) (g : KG) (now : Nat) : Except String Store :=
  match saveEntities s now g.entities with
  | .error err => .error err
  | .ok s1 => saveRelations s1 g.relations

/-- Input entity of `create_entities` (schema requires `name`,
`entityType`, `observations`; the handler tolerates a missing list). -/
structure EntityIn where
  name : String
  entityType : String
  observations : Option (List String) := none
deriving DecidableEq, Repr

/-- `createEntities` preprocessing: copy the entity and make sure
`observations` is an array. -/
def EntityIn.toProps (e : EntityIn) : Props :=
  { name := some e.name, entityType := some e.entityType,
    observations := some (e.observations.getD []) }

/-- `createEntities(entities)`: load, drop entities whose name already
exists, append the rest, save; returns the appended entities. -/
def createEntities (s : Store) (entities : List EntityIn) (now : Nat) :
    Except String (Store × List Props) :=
  let g := loadGraph s
  let processed := entities.map EntityIn.toProps
  let newEntities := processed.filter fun e =>
    !(g.entities.any fun ex => decide (ex.name = e.name))
  match saveGraph s { entities := g.entities ++ newEntities,
                      relations := g.relations } now with
  | .error err => .error err
  | .ok s' => .ok (s', newEntities)

/-- Input of `add_observations`. -/
structure ObsIn where
  entityName : String
  contents : List String
deriving DecidableEq, Repr

/-- Replace the first entity satisfying `p` by `f` of it. -/
def updateFirst (p : Props → Bool) (f : Props → Props) : List Props → List Props
  | [] => []
  | x :: xs => if p x then f x :: xs else x :: updateFirst p f xs

/-- One `observations.map` step of `addObservations`: find the target
entity (throw if absent), keep only contents not already present, and
push them onto that entity's list. -/
def addObsOne (ents : List Props) (o : ObsIn) :
    Except String (List Props × List String) :=
  match ents.find? (fun e => decide (e.name = some o.entityName)) with
  | none => .error ("Entity with name " ++ o.entityName ++ " not found")
  | some e =>
      let obs0 := e.observations.getD []
      let newObs := o.contents.filter fun c => !(decide (c ∈ obs0))
      let ents' := updateFirst (fun e2 => decide (e2.name = some o.entityName))
        (fun e2 => { e2 with observations := some ((e2.observations.getD []) ++ newObs) })
        ents
      .ok (ents', newObs)

/-- The `observations.map` loop of `addObservations`, threading the
mutated entity list; throws at the first missing entity. -/
def addObsList : List Props → List ObsIn →
    Except String (List Props × List (String × List String))
  | ents, [] => .ok (ents, [])
  | ents, o :: os =>
    match addObsOne ents o with
    | .error err => .error err
    | .ok (ents', added) =>
      match addObsList ents' os with
      | .error err => .error err
      | .ok (fin, rest) => .ok (fin, (o.entityName, added) :: rest)

/-- `addObservations(observations)`: load, mutate per target (throwing
before any save if a target entity is absent), save, return the contents
actually appended per entity. -/
def addObservations (s : Store) (observations : List ObsIn) (now : Nat) :
    Except String (Store × List (String × List String)) :=
  let g := loadGraph s
  match addObsList g.entities observations with
  | .error err => .error err
  | .ok (ents', results) =>
    match saveGraph s { entities := ents', relations := g.relations } now with
    | .error err => .error err
    | .ok s' => .ok (s', results)

/-- Input relation of `delete_relations` (schema requires all three). -/
structure RelIn where
  rfrom : String
  rto : String
  relationType : String
deriving DecidableEq, Repr

/-- `deleteRelations(relations)`: load, drop any loaded relation whose
`(from, to, relationType)` equals a given one, save. -/
def deleteRelations (s : Store) (relations : List RelIn) (now : Nat) :
    Except String Store :=
  let g := loadGraph s
  let kept := g.relations.filter fun r =>
    !(relations.any fun d => decide (r.rfrom = some d.rfrom) &&
      decide (r.rto = some d.rto) && decide (r.relationType = some d.relationType))
  saveGraph s { entities := g.entities, relations := kept } now

/-! ## Session lifecycle (`neo4j-memory.js`)

Each adapter operation that talks to the driver acquires a session.
`loadGraph`, `deleteEntities` and `executeCypherQuery` wrap the store
call in `try { ... } finally { await session.close() }`; `saveGraph`
returns `session.executeWrite(...).catch(...)` with no `finally` and no
`close` call.  We record the session events each control path emits,
parameterised on whether the store calls succeed or throw. -/

/-- Session lifecycle events. -/
inductive SessEvent where
  | sessionOpen
  | sessionClose
deriving DecidableEq, Repr

/-- `loadGraph` session trace: open, run inside `try`, close in
`finally` whether the read succeeds (`storeOk`) or throws. -/
def loadGraphSessions (storeOk : Bool) : List SessEvent × Bool :=
  ([SessEvent.sessionOpen, SessEvent.sessionClose], storeOk)

/-- `saveGraph` session trace: the session is opened and
`session.executeWrite(...).catch(...)` is returned; neither the success
path nor the `.catch` rethrow path ever calls `session.close()`. -/
def saveGraphSessions (writeOk : Bool) : List SessEvent × Bool :=
  ([SessEvent.sessionOpen], writeOk)

/-- `deleteEntities` session trace: an empty name list returns before a
session is created; otherwise open, run inside `try`, close in
`finally` on success and on throw alike. -/
def deleteEntitiesSessions (entityNames : List String) (storeOk : Bool) :
    List SessEvent × Bool :=
  if entityNames.isEmpty then ([], true)
  else ([SessEvent.sessionOpen, SessEvent.sessionClose], storeOk)

/-- `executeCypherQuery` session trace: open, run inside `try`, close in
`finally` on success and on throw alike. -/
def executeCypherQuerySessions (storeOk : Bool) : List SessEvent × Bool :=
  ([SessEvent.sessionOpen, SessEvent.sessionClose], storeOk)

/-! ## The `safe_cypher_query` handler (index.js)

Control flow of the handler: classify the query; read the process-wide
policy switches; when `ALLOW_CYPHER_QUERY_USER_INSISTS` is `'true'`,
read `args.params.force` (a `TypeError` when `params` was omitted, since
`args.params` is `undefined`); refuse unauthorized writes as data; wrap
authorized writes with the security check; execute; any thrown error is
caught and returned as the generic error payload. -/

/-- The `params` argument object; `force` is an optional property. -/
structure ParamsObj where
  force : Option String := none
deriving DecidableEq, Repr

/-- The handler arguments. `securityNodeName` is the value after the
source's `args.securityNodeName || null` coercion. -/
structure CypherArgs where
  query : String
  securityNodeName : Option String := none
  params : Option ParamsObj := none
deriving DecidableEq, Repr

/-- Process-wide policy switches, read from the environment. -/
structure PolicyEnv where
  /-- `NEO4J_UNSAFE_MEMORY_CYPHERS === 'true'` -/
  unsafeMemoryCyphers : Bool
  /-- `ALLOW_CYPHER_QUERY_USER_INSISTS === 'true'` -/
  allowUserInsists : Bool
deriving DecidableEq, Repr

/-- What the handler returns (always data, never a thrown error). -/
inductive HandlerOutcome where
  /-- The structured security refusal payload, with its diagnostic
  fields. -/
  | refusal (hasWriteOps : Bool) (securityNodeName : Option String)
      (allowUnsafeQueries userInsists : Bool)
  /-- Successful execution: row count, `queryType`, optional zero-rows
  message. -/
  | ok (rowCount : Nat) (queryType : String) (message : Option String)
  /-- The generic catch-all error payload. -/
  | errorPayload (error : String)
deriving DecidableEq, Repr

/-- Handler result plus whether `executeCypherQuery` was reached and
with which prepared query text. -/
structure HandlerResult where
  outcome : HandlerOutcome
  executed : Bool
  executedQuery : Option String := none
deriving DecidableEq, Repr

/-- The `safe_cypher_query` case of the tool-dispatch handler
(index.js).  `exec` is the backing `executeCypherQuery` call: the row
count it returns, or the error it throws. -/
def safeCypherQueryHandler (env : PolicyEnv) (args : CypherArgs)
    (exec : Except String Nat) : HandlerResult :=
  let hasWriteOps := containsWriteOperations args.query
  let allowUnsafeQueries := env.unsafeMemoryCyphers
  let userInsistsStep : Except String Bool :=
    if env.allowUserInsists then
      match args.params with
      | none => .error "Cannot read properties of undefined (reading force)"
      | some p => .ok (decide (p.force = some "true"))
    else .ok false
  match userInsistsStep with
  | .error _ =>
      { outcome := .errorPayload "Error executing Cypher query", executed := false }
  | .ok userInsists =>
    if hasWriteOps && args.securityNodeName.isNone &&
        !allowUnsafeQueries && !userInsists then
      { outcome := .refusal hasWriteOps args.securityNodeName
          allowUnsafeQueries userInsists
        executed := false }
    else
      let preparedQuery :=
        match args.securityNodeName with
        | some n =>
            if hasWriteOps && !allowUnsafeQueries then
              wrapWithSecurityCheck args.query n
            else args.query
        | none => args.query
      match exec with
      | .error _ =>
          { outcome := .errorPayload "Error executing Cypher query",
            executed := true, executedQuery := some preparedQuery }
      | .ok rowCount =>
          let message : Option String :=
            if hasWriteOps && decide (rowCount = 0) then
              if args.securityNodeName.isSome && !allowUnsafeQueries then
                some "The write operation did not affect any records. This could be because the security node was not found or has expired."
              else some "The write operation completed but did not affect any records."
            else none
          { outcome := .ok rowCount (if hasWriteOps then "write" else "read") message
            executed := true, executedQuery := some preparedQuery }

/-! ## The create-base-ontology orchestrator (`tools/base-ontology.js`)

`handleCreateBaseOntology` flow: validate `subject`; verify the parent
when supplied; `createSecurityNode`; then inside a `try ... finally
removeSecurityNode`: `checkBaseOntologyExists` (LLM-assisted), refuse
when it exists and `force_it` is unset, else `createBaseOntology`; an
outer `catch` converts any thrown error into an error result.  We record
the externally visible calls as a trace, with an oracle fixing the
outcome of every fallible external step. -/

/-- Externally visible steps of the workflow. -/
inductive OEvent where
  | checkParent
  /-- `createSecurityNode(name)` succeeded: the token now exists. -/
  | issueToken (name : String)
  | checkExists
  | generateOntology
  /-- `removeSecurityNode(name)` was invoked (the `finally`). -/
  | revokeToken (name : String)
deriving DecidableEq, Repr

/-- Outcomes of the fallible external steps. -/
structure OntOracle where
  /-- The parent existence query: does the parent ontology exist, or did
  the query throw? -/
  parentCheck : Except String Bool
  /-- The `createSecurityNode` write. -/
  createSec : Except String Unit
  /-- `checkBaseOntologyExists`: the `exists` flag, or a thrown error. -/
  existsCheck : Except String Bool
  /-- `createBaseOntology` (generation plus gated writes). -/
  createOnt : Except String Unit
deriving Repr

/-- The handler arguments `{subject, parent, force_it}`. -/
structure OntArgs where
  subject : Option String
  parent : Option String := none
  forceIt : Bool := false
deriving DecidableEq, Repr

/-- The result values `handleCreateBaseOntology` returns. -/
inductive OntResult where
  | missingSubject
  | parentMissing
  | alreadyExists
  | created
  | errorResult (msg : String)
deriving DecidableEq, Repr

/-- The inner `try { checkExists; refuse-or-create } finally
{ removeSecurityNode }` section, entered after the token was created. -/
def ontologyGuardedSection (o : OntOracle) (forceIt : Bool) (tok : String)
    (pre : List OEvent) : OntResult × List OEvent :=
  match o.existsCheck with
  | .error e =>
      (.errorResult e, pre ++ [OEvent.checkExists, OEvent.revokeToken tok])
  | .ok true =>
      if !forceIt then
        (.alreadyExists, pre ++ [OEvent.checkExists, OEvent.revokeToken tok])
      else
        match o.createOnt with
        | .error e => (.errorResult e,
            pre ++ [OEvent.checkExists, OEvent.generateOntology, OEvent.revokeToken tok])
        | .ok _ => (.created,
            pre ++ [OEvent.checkExists, OEvent.generateOntology, OEvent.revokeToken tok])
  | .ok false =>
      match o.createOnt with
      | .error e => (.errorResult e,
          pre ++ [OEvent.checkExists, OEvent.generateOntology, OEvent.revokeToken tok])
      | .ok _ => (.created,
          pre ++ [OEvent.checkExists, OEvent.generateOntology, OEvent.revokeToken tok])

/-- The token issue step and guarded section, entered after the parent
check passed (or was skipped). -/
def ontologyAfterParent (o : OntOracle) (forceIt : Bool) (tok : String)
    (pre : List OEvent) : OntResult × List OEvent :=
  match o.createSec with
  | .error e => (.errorResult e, pre)
  | .ok _ => ontologyGuardedSection o forceIt tok (pre ++ [OEvent.issueToken tok])

/-- `handleCreateBaseOntology(memory, args)` (tools/base-ontology.js).
`tok` is the generated security node name. -/
def handleCreateBaseOntology (args : OntArgs) (o : OntOracle) (tok : String) :
    OntResult × List OEvent :=
  match args.subject with
  | none => (.missingSubject, [])
  | some _ =>
    match args.parent with
    | some _ =>
      match o.parentCheck with
      | .error e => (.errorResult e, [OEvent.checkParent])
      | .ok false => (.parentMissing, [OEvent.checkParent])
      | .ok true => ontologyAfterParent o args.forceIt tok [OEvent.checkParent]
    | none => ontologyAfterParent o args.forceIt tok []

/-! ## `searchNodes` (neo4j-memory.js)

`searchNodes` filters the loaded entities: it keeps an entity when the
lower-cased query contains the lower-cased `name`, or contains the
lower-cased `entityType`, or some lower-cased observation contains the
lower-cased query; then it keeps the relations both of whose endpoints
survive.  Entities are viewed with their three searched fields present
(the code dereferences all three, so it only runs on such graphs). -/

/-- Lower-case a string (JS `toLowerCase`, ASCII as exercised here). -/
def lowerStr (s : String) : String := String.mk (s.data.map Char.toLower)

/-- JS `hay.includes(pat)`: `pat` is a contiguous substring of `hay`. -/
def jsIncludes (hay pat : String) : Bool := decide (pat.data <:+: hay.data)

/-- An entity as searched: `name`, `entityType`, `observations`. -/
structure EntityV where
  name : String
  entityType : String
  observations : List String
deriving DecidableEq, Repr

/-- A relation as filtered: `from`, `to`, `relationType`. -/
structure RelV where
  rfrom : String
  rto : String
  relationType : String
deriving DecidableEq, Repr

/-- A loaded graph as `searchNodes` consumes it. -/
structure KGV where
  entities : List EntityV
  relations : List RelV
deriving DecidableEq, Repr

/-- The entity filter of `searchNodes`:
`query.toLowerCase().includes(e.name.toLowerCase()) ||
query.toLowerCase().includes(e.entityType.toLowerCase()) ||
e.observations.some(o => o.toLowerCase().includes(query.toLowerCase()))`. -/
def searchEntityMatch (query : String) (e : EntityV) : Bool :=
  jsIncludes (lowerStr query) (lowerStr e.name) ||
  jsIncludes (lowerStr query) (lowerStr e.entityType) ||
  e.observations.any fun o => jsIncludes (lowerStr o) (lowerStr query)

/-- `searchNodes(query)`: filter entities, then keep relations whose
both endpoints are among the surviving entity names. -/
def searchNodes (g : KGV) (query : String) : KGV :=
  let filteredEntities := g.entities.filter (searchEntityMatch query)
  let names := filteredEntities.map (·.name)
  { entities := filteredEntities
    relations := g.relations.filter fun r =>
      decide (r.rfrom ∈ names) && decide (r.rto ∈ names) }

/-- The claim's field-match rule: a field matches the query
case-insensitively in either containment direction. -/
def claimFieldMatch (query : String) (e : EntityV) : Bool :=
  let both := fun (f : String) =>
    jsIncludes (lowerStr query) (lowerStr f) || jsIncludes (lowerStr f) (lowerStr query)
  both e.name || both e.entityType || e.observations.any both

/-! ## The no-duplicate-observations invariant -/

/-- A property map whose observation list (empty when absent) has no
duplicate values. -/
def ObsOk (p : Props) : Prop := (p.observations.getD []).Nodup

/-- Every stored node's observation list is duplicate-free. -/
def StoreObsNodup (s : Store) : Prop := ∀ nd ∈ s.nodes, ObsOk nd.props

/-- A `createEntities` / `addObservations` call. -/
inductive MemOp where
  | createE (entities : List EntityIn)
  | addObs (observations : List ObsIn)
deriving DecidableEq, Repr

/-- The amended well-formedness of a call's inputs: the supplied
observation lists themselves carry no internal duplicates. -/
def WfOp : MemOp → Prop
  | .createE es => ∀ e ∈ es, (e.observations.getD []).Nodup
  | .addObs os => ∀ o ∈ os, o.contents.Nodup

/-- Execute one adapter call against the store. -/
def runOp (s : Store) (now : Nat) : MemOp → Except String Store
  | .createE es =>
    match createEntities s es now with
    | .error err => .error err
    | .ok (s', _) => .ok s'
  | .addObs os =>
    match addObservations s os now with
    | .error err => .error err
    | .ok (s', _) => .ok s'

/-- Execute a sequence of adapter calls, stopping at the first error. -/
def runOps (s : Store) (now : Nat) : List MemOp → Except String Store
  | [] => .ok s
  | op :: ops =>
    match runOp s now op with
    | .error err => .error err
    | .ok s' => runOps s' now ops

/-! ## Concrete instances used by witnesses and counterexamples -/

/-- A store with no nodes at all. -/
def emptyStore : Store := { nodes := [], edges := [], nextId := 0 }

/-- A sample write query for the gate witness: a single `CREATE`. -/
def sampleCreateQuery : List Clause := [Clause.createNode Label.memory {}]

/-- Entity node `A` of the delete-relations scenario. -/
def nodeA : Node :=
  { nid := 0, label := Label.memory,
    props := { name := some "A", entityID := some "A" } }

/-- Entity node `B` of the delete-relations scenario. -/
def nodeB : Node :=
  { nid := 1, label := Label.memory,
    props := { name := some "B", entityID := some "B" } }

/-- The stored relationship `A -LIKES-> B`, carrying the domain's
`(from, to, relationType)` identity as relationship properties. -/
def edgeAB : Edge :=
  { src := 0, dst := 1,
    props := { rfrom := some "A", rto := some "B", relationType := some "LIKES" } }

/-- Store holding entities `A`, `B` and the relation `A -LIKES-> B`. -/
def relStore : Store := { nodes := [nodeA, nodeB], edges := [edgeAB], nextId := 2 }

/-- A single-entity store: `A` with an empty observation list. -/
def obsStore : Store :=
  let p : Props := { name := some "A", entityID := some "A", observations := some [] }
  let nd : Node := { nid := 0, label := Label.memory, props := p }
  { nodes := [nd], edges := [], nextId := 1 }

/-- `obsStore` after `addObservations [{A, [x, y]}]`. -/
def obsStoreXY : Store :=
  let p : Props :=
    { name := some "A", entityID := some "A", observations := some ["x", "y"], updatedAt := some 0 }
  let nd : Node := { nid := 0, label := Label.memory, props := p }
  { nodes := [nd], edges := [], nextId := 1 }

/-- Orchestrator arguments: fresh subject, no parent, not forced. -/
def ontArgsPlain : OntArgs := { subject := some "S" }

/-- Orchestrator oracle: every external step succeeds and the
existence check reports the subject as already represented. -/
def ontOracleExists : OntOracle :=
  { parentCheck := .ok true, createSec := .ok (), existsCheck := .ok true,
    createOnt := .ok () }

/-- Policy environment with both escape hatches off. -/
def envAllOff : PolicyEnv := { unsafeMemoryCyphers := false, allowUserInsists := false }

/-- Policy environment with only `ALLOW_CYPHER_QUERY_USER_INSISTS` on. -/
def envInsistsOn : PolicyEnv := { unsafeMemoryCyphers := false, allowUserInsists := true }

/-- A write call with no security node and no params. -/
def writeArgsBare : CypherArgs := { query := "CREATE (n:X)" }

/-- A read-only call with no params. -/
def readArgsBare : CypherArgs := { query := "MATCH (n) RETURN n" }

/-- The search scenario: one entity whose name contains the query. -/
def searchEnt : EntityV := { name := "abc", entityType := "t", observations := [] }

/-- Graph holding only `searchEnt`. -/
def searchGraph : KGV := { entities := [searchEnt], relations := [] }

/-! ## Supporting lemmas -/

lemma writeOperators_ne_nil {kw : List Char} (h : kw ∈ writeOperators) :
    kw ≠ [] := by
  simp only [writeOperators, List.map_cons, List.map_nil, List.mem_cons] at h
  rcases h with rfl | rfl | rfl | rfl | rfl | h
  · decide
  · decide
  · decide
  · decide
  · decide
  · exact absurd h (List.not_mem_nil kw)

theorem containsWriteOperations_iff (q : String) :
    containsWriteOperations q = true ↔ IsWriteQuery q := by
  unfold containsWriteOperations IsWriteQuery
  simp only [List.any_eq_true, List.mem_range, matchKwAt, Bool.and_eq_true,
    decide_eq_true_eq, Bool.or_eq_true, Bool.not_eq_true']
  constructor
  · rintro ⟨i, -, kw, hkw, ⟨hsl, hb1⟩, hb2⟩
    exact ⟨kw, hkw, i, hsl, hb1, hb2⟩
  · rintro ⟨kw, hkw, i, hsl, hb1, hb2⟩
    refine ⟨i, ?_, kw, hkw, ⟨hsl, hb1⟩, hb2⟩
    -- the match forces `i ≤ length`: past the end the slice is empty
    by_contra hlt
    push_neg at hlt
    have hi : q.data.length ≤ i := by omega
    have hnil : (q.data.drop i) = [] := List.drop_eq_nil_of_le hi
    rw [hnil] at hsl
    simp only [List.take_nil, List.map_nil] at hsl
    exact writeOperators_ne_nil hkw hsl.symm

lemma execClause_zero_rows (c : Clause) (s : Store) :
    execClause c (s, 0) = (s, 0) := by
  cases c <;> simp [execClause]

lemma execQuery_zero_rows (cs : List Clause) (s : Store) :
    execQuery cs (s, 0) = (s, 0) := by
  induction cs with
  | nil => rfl
  | cons c cs ih =>
      simp only [execQuery, List.foldl_cons]
      rw [show execClause c (s, 0) = (s, 0) from execClause_zero_rows c s]
      exact ih

lemma countSec_removeSecurityNodeStore (s : Store) (n : String) :
    countSec n (removeSecurityNodeStore s n) = 0 := by
  simp only [countSec, removeSecurityNodeStore, List.filter_filter,
    List.length_eq_zero, List.filter_eq_nil_iff]
  intro nd _
  by_cases h1 : nd.label = Label.securityNode <;>
    by_cases h2 : nd.props.name = some n <;> simp [h1, h2]

lemma ObsOk_propsPlusEq {old new : Props} (h1 : ObsOk old) (h2 : ObsOk new) :
    ObsOk (propsPlusEq old new) := by
  unfold ObsOk propsPlusEq at *
  cases hn : new.observations with
  | none => simpa [hn] using h1
  | some l => rw [hn] at h2; simpa [hn] using h2

lemma upsertEntity_obs {s : Store} {now : Nat} {e : Props} {s' : Store}
    (hs : StoreObsNodup s) (he : ObsOk e)
    (h : upsertEntity s now e = .ok s') : StoreObsNodup s' := by
  unfold upsertEntity at h
  split at h
  · exact absurd h (by simp)
  · dsimp only at h
    split at h
    · cases h
      intro nd hnd
      simp only [List.mem_map] at hnd
      obtain ⟨orig, horig, hrfl⟩ := hnd
      split at hrfl
      · subst hrfl
        have hm : ObsOk (propsPlusEq orig.props e) :=
          ObsOk_propsPlusEq (hs orig horig) he
        simpa [ObsOk] using hm
      · subst hrfl
        exact hs orig horig
    · cases h
      intro nd hnd
      simp only [List.mem_append, List.mem_singleton] at hnd
      rcases hnd with hnd | rfl
      · exact hs nd hnd
      · have hm : ObsOk (propsPlusEq {} e) := ObsOk_propsPlusEq (by simp [ObsOk]) he
        simpa [ObsOk] using hm

lemma saveEntities_obs {now : Nat} :
    ∀ {es : List Props} {s s' : Store}, StoreObsNodup s →
      (∀ e ∈ es, ObsOk e) → saveEntities s now es = .ok s' → StoreObsNodup s'
  | [], s, s', hs, _, h => by
      simp only [saveEntities] at h; cases h; exact hs
  | e :: es, s, s', hs, hes, h => by
      simp only [saveEntities] at h
      cases hup : upsertEntity s now e with
      | error err => rw [hup] at h; exact absurd h (by simp)
      | ok s1 =>
          rw [hup] at h
          exact saveEntities_obs
            (upsertEntity_obs hs (hes e (by simp)) hup)
            (fun x hx => hes x (by simp [hx])) h

lemma mergeEdgeOnce_nodes (s : Store) (a b : Nat) (rt : String) :
    (mergeEdgeOnce s a b rt).nodes = s.nodes := by
  unfold mergeEdgeOnce
  split <;> rfl

lemma foldl_mergeEdgeOnce_nodes (rt : String) :
    ∀ (l : List (Nat × Nat)) (s : Store),
      (l.foldl (fun st p => mergeEdgeOnce st p.1 p.2 rt) s).nodes = s.nodes
  | [], _ => rfl
  | p :: l, s => by
      rw [List.foldl_cons, foldl_mergeEdgeOnce_nodes rt l, mergeEdgeOnce_nodes]

lemma mergeRelation_nodes {s s' : Store} {r : RProps}
    (h : mergeRelation s r = .ok s') : s'.nodes = s.nodes := by
  unfold mergeRelation at h
  cases hf : r.rfrom with
  | none => rw [hf] at h; cases hT : r.rto <;> rw [hT] at h <;> cases h <;> rfl
  | some f =>
    rw [hf] at h
    cases hT : r.rto with
    | none => rw [hT] at h; cases h; rfl
    | some t =>
      rw [hT] at h
      dsimp only at h
      split at h
      · cases h; rfl
      · split at h
        · exact absurd h (by simp)
        · cases h; exact foldl_mergeEdgeOnce_nodes _ _ _

lemma saveRelations_obs :
    ∀ {rs : List RProps} {s s' : Store}, StoreObsNodup s →
      saveRelations s rs = .ok s' → StoreObsNodup s'
  | [], s, s', hs, h => by
      simp only [saveRelations] at h; cases h; exact hs
  | r :: rs, s, s', hs, h => by
      simp only [saveRelations] at h
      cases hm : mergeRelation s r with
      | error err => rw [hm] at h; exact absurd h (by simp)
      | ok s1 =>
          rw [hm] at h
          have hnodes : s1.nodes = s.nodes := mergeRelation_nodes hm
          exact saveRelations_obs (fun nd hnd => hs nd (hnodes ▸ hnd)) h

lemma saveGraph_obs {s s' : Store} {g : KG} {now : Nat}
    (hs : StoreObsNodup s) (hg : ∀ e ∈ g.entities, ObsOk e)
    (h : saveGraph s g now = .ok s') : StoreObsNodup s' := by
  unfold saveGraph at h
  cases hse : saveEntities s now g.entities with
  | error err => rw [hse] at h; exact absurd h (by simp)
  | ok s1 =>
      rw [hse] at h
      exact saveRelations_obs (saveEntities_obs hs hg hse) h

lemma loadGraph_entities_obs {s : Store} (hs : StoreObsNodup s) :
    ∀ e ∈ (loadGraph s).entities, ObsOk e := by
  intro e he
  simp only [loadGraph, List.mem_map, List.mem_filter] at he
  obtain ⟨nd, ⟨hnd, -⟩, rfl⟩ := he
  exact hs nd hnd

lemma updateFirst_eq_of_find? {p : Props → Bool} (f : Props → Props) :
    ∀ {ents : List Props} {e : Props}, ents.find? p = some e →
      ∃ l1 l2, ents = l1 ++ e :: l2 ∧ updateFirst p f ents = l1 ++ f e :: l2
  | [], e, h => by simp at h
  | x :: xs, e, h => by
      by_cases hx : p x
      · rw [List.find?_cons_of_pos _ hx] at h
        cases h
        exact ⟨[], xs, by simp, by simp [updateFirst, hx]⟩
      · rw [List.find?_cons_of_neg _ hx] at h
        obtain ⟨l1, l2, hsplit, hupd⟩ := updateFirst_eq_of_find? f h
        exact ⟨x :: l1, l2, by simp [hsplit], by simp [updateFirst, hx, hupd]⟩

lemma addObsOne_obs {ents ents' : List Props} {o : ObsIn} {added : List String}
    (hents : ∀ e ∈ ents, ObsOk e) (hc : o.contents.Nodup)
    (h : addObsOne ents o = .ok (ents', added)) : ∀ e ∈ ents', ObsOk e := by
  unfold addObsOne at h
  cases hf : ents.find? fun e => decide (e.name = some o.entityName) with
  | none => rw [hf] at h; exact absurd h (by simp)
  | some e0 =>
    rw [hf] at h
    dsimp only at h
    cases h
    obtain ⟨l1, l2, hsplit, hupd⟩ := updateFirst_eq_of_find?
      (fun e2 => { e2 with observations := some ((e2.observations.getD []) ++
        (o.contents.filter fun c => !(decide (c ∈ e0.observations.getD [])))) }) hf
    rw [hupd]
    intro x hx
    simp only [List.mem_append, List.mem_cons] at hx
    rcases hx with hx | hx | hx
    · exact hents x (by rw [hsplit]; simp [hx])
    · subst hx
      show ((some _).getD []).Nodup
      simp only [Option.getD_some]
      rw [List.nodup_append]
      refine ⟨hents e0 (by rw [hsplit]; simp), List.Nodup.filter _ hc, ?_⟩
      intro a ha hb
      have := List.of_mem_filter hb
      simp only [Bool.not_eq_true', decide_eq_false_iff_not] at this
      exact this ha
    · exact hents x (by rw [hsplit]; simp [hx])

lemma addObsList_obs :
    ∀ {os : List ObsIn} {ents ents' : List Props}
      {res : List (String × List String)},
      (∀ e ∈ ents, ObsOk e) → (∀ o ∈ os, o.contents.Nodup) →
      addObsList ents os = .ok (ents', res) → ∀ e ∈ ents', ObsOk e
  | [], ents, ents', res, hents, _, h => by
      simp only [addObsList] at h
      cases h
      exact hents
  | o :: os, ents, ents', res, hents, hos, h => by
      simp only [addObsList] at h
      cases h1 : addObsOne ents o with
      | error err => rw [h1] at h; exact absurd h (by simp)
      | ok pr =>
          obtain ⟨ents1, added⟩ := pr
          rw [h1] at h
          dsimp only at h
          cases h2 : addObsList ents1 os with
          | error err => rw [h2] at h; exact absurd h (by simp)
          | ok pr2 =>
              obtain ⟨fin, rest⟩ := pr2
              rw [h2] at h
              cases h
              exact addObsList_obs
                (addObsOne_obs hents (hos o (by simp)) h1)
                (fun x hx => hos x (by simp [hx])) h2

/-- One well-formed adapter call preserves the invariant. -/
lemma runOp_obs {s s' : Store} {now : Nat} {op : MemOp}
    (hs : StoreObsNodup s) (hw : WfOp op)
    (h : runOp s now op = .ok s') : StoreObsNodup s' := by
  cases op with
  | createE es =>
    simp only [runOp] at h
    cases hc : createEntities s es now with
    | error err => rw [hc] at h; exact absurd h (by simp)
    | ok pr =>
        obtain ⟨s1, ret⟩ := pr
        rw [hc] at h
        cases h
        unfold createEntities at hc
        dsimp only at hc
        split at hc
        · exact absurd hc (by simp)
        · rename_i s2 hsave
          cases hc
          refine saveGraph_obs hs ?_ hsave
          intro e he
          simp only [List.mem_append] at he
          rcases he with he | he
          · exact loadGraph_entities_obs hs e he
          · have := List.of_mem_filter he
            have hmem := List.mem_of_mem_filter he
            simp only [List.mem_map] at hmem
            obtain ⟨ein, hein, rfl⟩ := hmem
            show ((EntityIn.toProps ein).observations.getD []).Nodup
            simpa [EntityIn.toProps] using hw ein hein
  | addObs os =>
    simp only [runOp] at h
    cases ha : addObservations s os now with
    | error err => rw [ha] at h; exact absurd h (by simp)
    | ok pr =>
        obtain ⟨s1, res⟩ := pr
        rw [ha] at h
        cases h
        unfold addObservations at ha
        dsimp only at ha
        cases hl : addObsList (loadGraph s).entities os with
        | error err => rw [hl] at ha; exact absurd ha (by simp)
        | ok pr2 =>
            obtain ⟨ents', results⟩ := pr2
            rw [hl] at ha
            dsimp only at ha
            set g2 : KG := { entities := ents', relations := (loadGraph s).relations } with hg2
            cases hsv : saveGraph s g2 now with
            | error err => rw [hsv] at ha; exact absurd ha (by simp)
            | ok s2 =>
                rw [hsv] at ha
                cases ha
                exact saveGraph_obs hs
                  (addObsList_obs (loadGraph_entities_obs hs) hw hl) hsv

/-- A well-formed call sequence preserves the invariant. -/
lemma runOps_obs :
    ∀ {ops : List MemOp} {s s' : Store} {now : Nat},
      StoreObsNodup s → (∀ op ∈ ops, WfOp op) →
      runOps s now ops = .ok s' → StoreObsNodup s'
  | [], s, s', now, hs, _, h => by
      simp only [runOps] at h; cases h; exact hs
  | op :: ops, s, s', now, hs, hw, h => by
      simp only [runOps] at h
      cases h1 : runOp s now op with
      | error err => rw [h1] at h; exact absurd h (by simp)
      | ok s1 =>
          rw [h1] at h
          exact runOps_obs (runOp_obs hs (hw op (by simp)) h1)
            (fun x hx => hw x (by simp [hx])) h

/-! ## Claim theorems -/

/-- **C3.** `containsWriteOperations(q)` returns true iff `q` contains a
case-insensitive, word-boundary (standalone-token) occurrence of one of
CREATE, SET, DELETE, REMOVE, MERGE; `"MATCH (n) RETURN n"` classifies
as read, `"MERGE (n:X) RETURN n"` as write, and
`"MATCH (n) WHERE n.name='CREATEfoo' RETURN n"` not as write. -/
theorem claim_C3_classifier :
    (∀ q : String, containsWriteOperations q = true ↔ IsWriteQuery q) ∧
    containsWriteOperations "MATCH (n) RETURN n" = false ∧
    containsWriteOperations "MERGE (n:X) RETURN n" = true ∧
    containsWriteOperations "MATCH (n) WHERE n.name='CREATEfoo' RETURN n" = false :=
  ⟨containsWriteOperations_iff, by decide, by decide, by decide⟩

lemma execQuery_gate_noToken (q : List Clause) (n : String) (s : Store)
    (h : countSec n s = 0) : execQuery (gateClauses q n) (s, 1) = (s, 0) := by
  simp only [gateClauses, execQuery, List.foldl_cons]
  have h1 : execClause (Clause.matchSecurity n) (s, 1) = (s, 0) := by
    simp [execClause, h]
  rw [h1]
  have h2 : execClause Clause.filterNotNull (s, 0) = (s, 0) := rfl
  rw [h2]
  exact execQuery_zero_rows q s

/-- **C2.** Executing the gated query produced by
`wrapWithSecurityCheck` against a store containing no `SecurityNode` of
the given name leaves the store unchanged and yields zero rows; in
particular, after `removeSecurityNode` revokes the token, re-executing
the same gated query affects zero rows and changes nothing. -/
theorem claim_C2_gated_query_inert (q : List Clause) (n : String) (s : Store)
    (h : countSec n s = 0) :
    execQuery (gateClauses q n) (s, 1) = (s, 0) ∧
    execQuery (gateClauses q n) (removeSecurityNodeStore s n, 1) =
      (removeSecurityNodeStore s n, 0) :=
  ⟨execQuery_gate_noToken q n s h,
   execQuery_gate_noToken q n _ (countSec_removeSecurityNodeStore s n)⟩

/-- Witness for C2 at a concrete `CREATE` query, token name and store. -/
theorem claim_C2_gated_query_inert_witness :
    countSec "tok" emptyStore = 0 ∧
    (execQuery (gateClauses sampleCreateQuery "tok") (emptyStore, 1) = (emptyStore, 0) ∧
     execQuery (gateClauses sampleCreateQuery "tok")
        (removeSecurityNodeStore emptyStore "tok", 1) =
       (removeSecurityNodeStore emptyStore "tok", 0)) :=
  ⟨rfl, claim_C2_gated_query_inert sampleCreateQuery "tok" emptyStore rfl⟩

/-- **C1.** A write-classified `safe_cypher_query` call with no security
node name, unsafe mode off and user-insists not active returns the
structured refusal payload as data: the handler neither throws (the
model returns a `HandlerResult` on every path) nor reaches
`executeCypherQuery`. -/
theorem claim_C1_write_refused_as_data (env : PolicyEnv) (args : CypherArgs)
    (exec : Except String Nat)
    (hw : containsWriteOperations args.query = true)
    (hn : args.securityNodeName = none)
    (hu : env.unsafeMemoryCyphers = false)
    (hi : env.allowUserInsists = false ∨
      ∃ p, args.params = some p ∧ p.force ≠ some "true") :
    safeCypherQueryHandler env args exec =
      { outcome := .refusal true none false false, executed := false,
        executedQuery := none } := by
  unfold safeCypherQueryHandler
  rcases hi with hi | ⟨p, hp, hf⟩
  · simp [hi, hw, hn, hu]
  · cases henv : env.allowUserInsists
    · simp [henv, hw, hn, hu]
    · simp [henv, hp, hw, hn, hu, hf]

/-- Witness for C1: a concrete `CREATE` with no token under all-off
policy is refused and not executed. -/
theorem claim_C1_write_refused_as_data_witness :
    containsWriteOperations writeArgsBare.query = true ∧
    safeCypherQueryHandler envAllOff writeArgsBare (.ok 0) =
      { outcome := .refusal true none false false, executed := false,
        executedQuery := none } :=
  ⟨by decide, claim_C1_write_refused_as_data envAllOff writeArgsBare (.ok 0)
    (by decide) rfl rfl (Or.inl rfl)⟩

/-- **C10.** With `ALLOW_CYPHER_QUERY_USER_INSISTS = 'true'`, every
`safe_cypher_query` call that omits `params` hits the
`args.params.force` dereference of `undefined`; the `TypeError` is
caught and the call returns the generic error payload — it is never
policy-checked and never executed, whatever the query. -/
theorem claim_C10_params_omitted_typeerror (env : PolicyEnv) (args : CypherArgs)
    (exec : Except String Nat)
    (ha : env.allowUserInsists = true) (hp : args.params = none) :
    safeCypherQueryHandler env args exec =
      { outcome := .errorPayload "Error executing Cypher query",
        executed := false, executedQuery := none } := by
  unfold safeCypherQueryHandler
  simp [ha, hp]

/-- Witness for C10: a read-only query with omitted `params` under the
user-insists switch yields the generic error payload, unexecuted. -/
theorem claim_C10_params_omitted_typeerror_witness :
    envInsistsOn.allowUserInsists = true ∧ readArgsBare.params = none ∧
    containsWriteOperations readArgsBare.query = false ∧
    safeCypherQueryHandler envInsistsOn readArgsBare (.ok 5) =
      { outcome := .errorPayload "Error executing Cypher query",
        executed := false, executedQuery := none } :=
  ⟨rfl, rfl, by decide,
   claim_C10_params_omitted_typeerror envInsistsOn readArgsBare (.ok 5) rfl rfl⟩

/-- **C4.** Claimed: after `deleteRelations(rs)` completes successfully
the stored graph returned by `loadGraph` contains no relation whose
`(from, to, relationType)` triple equals a member of `rs`.  The code
violates this: `saveGraph` only `MERGE`s the kept relations and never
deletes a relationship, so on `relStore` the call succeeds yet
`loadGraph` still returns the `A -LIKES-> B` relation that was asked to
be deleted, and the store's edge set is untouched. -/
theorem claim_C4_deleteRelations_not_persisted :
    ((deleteRelations relStore [⟨"A", "B", "LIKES"⟩] 0).toOption.map fun s' =>
      (loadGraph s').relations.contains
        ⟨some "A", some "B", some "LIKES"⟩ &&
      decide (s'.edges = relStore.edges)) = some true := by
  decide

/-- **C5.** Claimed: every adapter operation that opens a driver session
closes it on every exit path.  `loadGraph`, `deleteEntities` and
`executeCypherQuery` do (their `finally` closes on success and on throw
alike), but `saveGraph` opens a session and returns
`session.executeWrite(...).catch(...)` without ever calling
`session.close()`: one open, zero closes, on the success path and the
error path both. -/
theorem claim_C5_saveGraph_session_leak :
    (∀ writeOk : Bool,
      (saveGraphSessions writeOk).1.count SessEvent.sessionOpen = 1 ∧
      (saveGraphSessions writeOk).1.count SessEvent.sessionClose = 0) ∧
    (∀ storeOk : Bool,
      (loadGraphSessions storeOk).1.count SessEvent.sessionClose =
        (loadGraphSessions storeOk).1.count SessEvent.sessionOpen ∧
      (executeCypherQuerySessions storeOk).1.count SessEvent.sessionClose =
        (executeCypherQuerySessions storeOk).1.count SessEvent.sessionOpen ∧
      ∀ names : List String,
        (deleteEntitiesSessions names storeOk).1.count SessEvent.sessionClose =
          (deleteEntitiesSessions names storeOk).1.count SessEvent.sessionOpen) := by
  refine ⟨fun writeOk => ⟨rfl, rfl⟩, fun storeOk => ⟨rfl, rfl, fun names => ?_⟩⟩
  by_cases h : names.isEmpty <;> simp [deleteEntitiesSessions, h]

lemma guarded_alreadyExists {o : OntOracle} {f : Bool} {tok : String}
    {pre : List OEvent}
    (h : (ontologyGuardedSection o f tok pre).1 = OntResult.alreadyExists) :
    (ontologyGuardedSection o f tok pre).2 =
      pre ++ [OEvent.checkExists, OEvent.revokeToken tok] := by
  obtain ⟨pc, cs, ec, co⟩ := o
  cases ec with
  | error e => simp [ontologyGuardedSection] at h
  | ok b => cases b <;> cases co <;> cases f <;>
      simp_all [ontologyGuardedSection]

lemma afterParent_alreadyExists {o : OntOracle} {f : Bool} {tok : String}
    {pre : List OEvent}
    (h : (ontologyAfterParent o f tok pre).1 = OntResult.alreadyExists) :
    (ontologyAfterParent o f tok pre).2 =
      pre ++ [OEvent.issueToken tok, OEvent.checkExists, OEvent.revokeToken tok] := by
  obtain ⟨pc, cs, ec, co⟩ := o
  unfold ontologyAfterParent at h ⊢
  dsimp only at h ⊢
  cases cs with
  | error e => simp at h
  | ok u =>
      dsimp only at h ⊢
      rw [guarded_alreadyExists h]
      simp

/-- **C6 counterexample.** Claimed: on a request whose subject already
exists (and is not forced) the workflow refuses without ever having
created a security token.  In the code `createSecurityNode` runs
*before* `checkBaseOntologyExists`: with every external step succeeding
and the existence check reporting true, the result is the
already-exists refusal and the trace nevertheless contains the token
issuance. -/
theorem claim_C6_counterexample :
    (handleCreateBaseOntology ontArgsPlain ontOracleExists "sec-1").1 =
      OntResult.alreadyExists ∧
    OEvent.issueToken "sec-1" ∈
      (handleCreateBaseOntology ontArgsPlain ontOracleExists "sec-1").2 := by
  decide

/-- **C6 (amended).** The security token is issued *before* the
existence check: on every request refused because the subject already
exists, the trace ends with token issuance, then the existence check,
then token revocation — so the refusal path does create a token, but
revokes it before returning. -/
theorem claim_C6_amended_token_issued_before_check (args : OntArgs)
    (o : OntOracle) (tok : String)
    (h : (handleCreateBaseOntology args o tok).1 = OntResult.alreadyExists) :
    ∃ pre, (handleCreateBaseOntology args o tok).2 =
      pre ++ [OEvent.issueToken tok, OEvent.checkExists, OEvent.revokeToken tok] := by
  obtain ⟨subj, par, f⟩ := args
  obtain ⟨pc, cs, ec, co⟩ := o
  unfold handleCreateBaseOntology at h ⊢
  dsimp only at h ⊢
  cases subj with
  | none => simp at h
  | some s =>
    dsimp only at h ⊢
    cases par with
    | none =>
        dsimp only at h ⊢
        exact ⟨[], afterParent_alreadyExists h⟩
    | some p =>
        dsimp only at h ⊢
        cases pc with
        | error e => simp at h
        | ok b =>
            cases b with
            | false => simp at h
            | true =>
                dsimp only at h ⊢
                exact ⟨[OEvent.checkParent], afterParent_alreadyExists h⟩

/-- Witness for the amended C6 at the concrete already-exists run. -/
theorem claim_C6_amended_witness :
    (handleCreateBaseOntology ontArgsPlain ontOracleExists "sec-1").1 =
      OntResult.alreadyExists ∧
    ∃ pre, (handleCreateBaseOntology ontArgsPlain ontOracleExists "sec-1").2 =
      pre ++ [OEvent.issueToken "sec-1", OEvent.checkExists,
        OEvent.revokeToken "sec-1"] :=
  ⟨by decide,
   claim_C6_amended_token_issued_before_check ontArgsPlain ontOracleExists "sec-1"
     (by decide)⟩

/-- **C7.** Every run of `handleCreateBaseOntology` that creates a
security node also invokes its removal before returning — success,
already-exists refusal, and failure of the existence check or of the
creation step alike (`try ... finally removeSecurityNode`): whenever the
trace records a token issuance, it records the revocation of that same
token. -/
theorem claim_C7_issued_token_always_revoked (args : OntArgs) (o : OntOracle)
    (tok n : String)
    (h : OEvent.issueToken n ∈ (handleCreateBaseOntology args o tok).2) :
    OEvent.revokeToken n ∈ (handleCreateBaseOntology args o tok).2 := by
  obtain ⟨pc, cs, ec, co⟩ := o
  obtain ⟨subj, par, f⟩ := args
  cases subj <;> cases par <;>
    rcases pc with pce | pcb <;> (try cases pcb) <;>
    rcases cs with cse | csu <;>
    rcases ec with ece | ecb <;> (try cases ecb) <;>
    cases f <;>
    rcases co with coe | cou <;>
    simp_all [handleCreateBaseOntology, ontologyAfterParent, ontologyGuardedSection]

/-- Witness for C7 at the concrete already-exists run. -/
theorem claim_C7_witness :
    OEvent.issueToken "sec-1" ∈
      (handleCreateBaseOntology ontArgsPlain ontOracleExists "sec-1").2 ∧
    OEvent.revokeToken "sec-1" ∈
      (handleCreateBaseOntology ontArgsPlain ontOracleExists "sec-1").2 :=
  ⟨by decide,
   claim_C7_issued_token_always_revoked ontArgsPlain ontOracleExists "sec-1" "sec-1"
     (by decide)⟩

/-- **C8 counterexample.** Claimed: `searchNodes(q)` returns exactly the
entities with a field matching `q` in *either* containment direction.
The entity `{name := "abc"}` matches the query `"b"` under the claimed
rule (the name contains the query), yet `searchNodes` drops it: for
`name` and `entityType` the code only tests whether the *query contains
the field*. -/
theorem claim_C8_counterexample :
    claimFieldMatch "b" searchEnt = true ∧
    (searchNodes searchGraph "b").entities = [] := by
  decide

/-- **C8 (amended).** `searchNodes(q)` returns exactly the entities for
which the lower-cased query contains the lower-cased `name`, or contains
the lower-cased `entityType`, or some lower-cased observation contains
the lower-cased query (one fixed containment direction per field),
together with exactly the relations both of whose endpoints are among
the returned entity names. -/
theorem claim_C8_amended_search_characterization (g : KGV) (q : String) :
    (∀ e, e ∈ (searchNodes g q).entities ↔ e ∈ g.entities ∧
      (jsIncludes (lowerStr q) (lowerStr e.name) = true ∨
       jsIncludes (lowerStr q) (lowerStr e.entityType) = true ∨
       ∃ o ∈ e.observations, jsIncludes (lowerStr o) (lowerStr q) = true)) ∧
    (∀ r, r ∈ (searchNodes g q).relations ↔ r ∈ g.relations ∧
      r.rfrom ∈ (searchNodes g q).entities.map EntityV.name ∧
      r.rto ∈ (searchNodes g q).entities.map EntityV.name) := by
  constructor
  · intro e
    simp [searchNodes, searchEntityMatch, List.mem_filter, List.any_eq_true,
      Bool.or_eq_true, or_assoc]
  · intro r
    simp [searchNodes, List.mem_filter]

/-- **C9 counterexample.** Claimed: from a duplicate-free store, no
sequence of `createEntities`/`addObservations` calls — including an
`addObservations` whose `contents` repeats a string — produces a
duplicated observation.  The filter in `addObservations` only removes
contents already stored *before* the call, so `contents = ["x", "x"]`
against entity `A` (duplicate-free store) succeeds and stores
`["x", "x"]`. -/
theorem claim_C9_counterexample :
    (∀ nd ∈ obsStore.nodes, (nd.props.observations.getD []).Nodup) ∧
    ((runOps obsStore 0 [MemOp.addObs [⟨"A", ["x", "x"]⟩]]).toOption.map
      fun s' => decide (∀ nd ∈ s'.nodes, (nd.props.observations.getD []).Nodup)) =
      some false := by
  constructor
  · decide
  · decide

/-- **C9 (amended).** From a store whose every node has a duplicate-free
observation list, any sequence of `createEntities` and `addObservations`
calls whose supplied observation lists are themselves duplicate-free
preserves the invariant: no entity ends up with a duplicated
observation value. -/
theorem claim_C9_amended_nodup_preserved {s s' : Store} {now : Nat}
    {ops : List MemOp}
    (hs : StoreObsNodup s) (hw : ∀ op ∈ ops, WfOp op)
    (h : runOps s now ops = .ok s') : StoreObsNodup s' :=
  runOps_obs hs hw h

/-- Witness for the amended C9 at a concrete duplicate-free call. -/
theorem claim_C9_amended_witness :
    runOps obsStore 0 [MemOp.addObs [⟨"A", ["x", "y"]⟩]] = .ok obsStoreXY ∧
    StoreObsNodup obsStoreXY := by
  constructor
  · rfl
  · refine @claim_C9_amended_nodup_preserved obsStore obsStoreXY 0
      [MemOp.addObs [⟨"A", ["x", "y"]⟩]] ?_ ?_ rfl
    · intro nd hnd
      simp only [obsStore, List.mem_singleton] at hnd
      subst hnd
      show ((some []).getD []).Nodup
      decide
    · intro op hop
      simp only [List.mem_singleton] at hop
      subst hop
      intro o ho
      simp only [List.mem_singleton] at ho
      subst ho
      decide

end SemMem
